import Mathlib

/-!
Sale record store, file `repo/db/sales.go`.

A shallow embedding of `SalesDB` and its six operations `Put`, `MarkAsRead`,
`UpdateFunding`, `Delete`, `GetAll` and `GetByPaymentAddress`.

* The `sales` table is a list of rows in SQLite rowid order.  The SQL statements
  the source issues are given their SQLite meaning on that list: `QueryRow` on a
  `where` clause yields the first row selected, `insert or replace` deletes the
  rows holding the primary key and appends the new row, `update` and `delete`
  act on every row the `where` clause selects, and the unfiltered
  `select orderID from sales` is answered from the primary-key index, in key
  order.  The operations are defined on every list; `Put_preserves_primary_key`
  and its siblings show that they keep the orderID column free of duplicates.
* A Go run-time panic is an explicit outcome.  The language does not fix the
  order in which the operands of the `Exec` call are evaluated, so which of the
  two run-time errors is raised when several faults coexist is not modelled.
* The serialisers (`jsonpb`, `encoding/json`), `strings.ToLower` and the address
  type are external collaborators; they are fields of `Ext` and of `Address`.
* Store-level failures of the database handle are outside the model: every
  statement executes.
* The mutex held by every operation makes each call atomic; calls are modelled
  as functions from the table before to the outcome and the table after.
-/

namespace SalesDB

/-! Contract document -/

/-- Modelled from the spec: `pb.ID`, the buyer identity (guid and blockchain identity);
the declaration lives in package `pb`. -/
structure ID where
  Guid : String
  BlockchainID : String
deriving DecidableEq, Repr

/-- Modelled from the spec: `pb.Order_Shipping`, the shipping sub-document. -/
structure Order_Shipping where
  ShipTo : String
  Address : String
deriving DecidableEq, Repr

/-- Modelled from the spec: `pb.Order_Payment_Method`, the payment method enumeration
(direct, address-request, and the remaining moderated method). -/
inductive Order_Payment_Method where
  | ADDRESS_REQUEST
  | DIRECT
  | MODERATED
deriving DecidableEq, Repr

/-- Modelled from the spec: `pb.Order_Payment`, the payment sub-structure; `Amount` is
a `uint64`, kept as a natural number. -/
structure Order_Payment where
  Method : Order_Payment_Method
  Address : String
  Amount : Nat
deriving DecidableEq, Repr

/-- Modelled from the spec: the protobuf timestamp, of which only `Seconds` (an
`int64`) is read. -/
structure Timestamp where
  Seconds : Int
deriving DecidableEq, Repr

/-- Modelled from the spec: `pb.Order`, the buyer order; every sub-structure is a
pointer and may be nil. -/
structure Order where
  BuyerID : Option ID
  Shipping : Option Order_Shipping
  Payment : Option Order_Payment
  Timestamp : Option Timestamp
deriving DecidableEq, Repr

/-- Modelled from the spec: `pb.Listing_Item_Image`, of which only the hash is read. -/
structure Listing_Item_Image where
  Hash : String
deriving DecidableEq, Repr

/-- Modelled from the spec: `pb.Listing_Item`, with its title and its slice of image
pointers. -/
structure Listing_Item where
  Title : String
  Images : List (Option Listing_Item_Image)
deriving DecidableEq, Repr

/-- Modelled from the spec: `pb.Listing`, of which only the item pointer is read. -/
structure Listing where
  Item : Option Listing_Item
deriving DecidableEq, Repr

/-- Modelled from the spec: `pb.OrderConfirmation`, the vendor confirmation carrying
the confirmed payment address. -/
structure OrderConfirmation where
  PaymentAddress : String
deriving DecidableEq, Repr

/-- Modelled from the spec: `pb.RicardianContract`, the contract document with its
slice of listing pointers, buyer order and vendor order confirmation. -/
structure RicardianContract where
  VendorListings : List (Option Listing)
  BuyerOrder : Option Order
  VendorOrderConfirmation : Option OrderConfirmation
deriving DecidableEq, Repr

/-- Modelled from the spec: `pb.OrderState`, an integer-coded lifecycle stage; the
generated type is an `int32`. -/
structure OrderState where
  toInt : Int
  lower : -2147483648 ≤ toInt
  upper : toInt < 2147483648
deriving DecidableEq, Repr

/-- The Go conversion `pb.OrderState(n)` of an `int`: truncation to 32 bits. -/
def OrderState.ofInt (n : Int) : OrderState :=
  ⟨(n + 2147483648) % 4294967296 - 2147483648, by omega, by omega⟩

/-- The Go conversion `int(u)` of a `uint64` on a 64-bit platform. -/
def intOfUint64 (u : Nat) : Int :=
  if u % 18446744073709551616 < 9223372036854775808 then
    ((u % 18446744073709551616 : Nat) : Int)
  else
    ((u % 18446744073709551616 : Nat) : Int) - 18446744073709551616

/-- The wallet transaction record `spvwallet.TransactionRecord`; the store only
passes it to the serialiser. -/
structure TransactionRecord where
  Txid : String
  Index : Nat
  Value : Int
deriving DecidableEq, Repr

/-- The interface `btc.Address`; only `EncodeAddress()` is called. -/
structure Address where
  EncodeAddress : String
deriving DecidableEq, Repr

/-- The external functions the store calls. `MarshalToString` is
`jsonpb.Marshaler.MarshalToString` (its error is discarded by `Put`, the string
is what it hands back), `UnmarshalString` is `jsonpb.UnmarshalString` (`none`
when it reports an error), `Marshal` is `json.Marshal` on a record slice
(`none` is a nil byte slice), `ToLower` is `strings.ToLower`. -/
structure Ext where
  MarshalToString : RicardianContract → String
  UnmarshalString : String → Option RicardianContract
  Marshal : List TransactionRecord → Option String
  ToLower : String → String

/-! Table and operations -/

/-- One row of table `sales`, with the fifteen columns of the insert statement.
A nil byte slice is stored as `none` in column `transactions`. -/
structure Row where
  orderID : String
  contract : String
  state : Int
  read : Int
  date : Int
  total : Int
  thumbnail : String
  buyerID : String
  buyerBlockchainID : String
  title : String
  shippingName : String
  shippingAddress : String
  paymentAddr : String
  funded : Int
  transactions : Option String
deriving DecidableEq, Repr

/-- The table `sales` in scan order. -/
abbrev Store := List Row

/-- A run-time panic of the Go code: a nil pointer dereference or an index out of
range. The two are not told apart, since the order in which Go evaluates the
operands of one call, and so the error raised first, is left to the compiler. -/
inductive Panic where
  | runtimeError
deriving DecidableEq, Repr

/-- Errors returned by the operations: `sql.ErrNoRows` and the decode error of
`jsonpb.UnmarshalString`. -/
inductive Error where
  | ErrNoRows
  | unmarshalError
deriving DecidableEq, Repr

/-- How a call ends: it returns a value with a nil error, returns an error, or
panics. -/
inductive Outcome (α : Type) where
  | ok (a : α)
  | error (e : Error)
  | panic (p : Panic)
deriving DecidableEq, Repr

/-- Dereference of a pointer. -/
def deref {α : Type} : Option α → Except Panic α
  | some a => .ok a
  | none => .error .runtimeError

/-- Indexing `l[0]` of a slice. -/
def first {α : Type} : List α → Except Panic α
  | a :: _ => .ok a
  | [] => .error .runtimeError

/-- Statement `select ... from sales where orderID=?` run through `QueryRow`. -/
def selectByOrderID (s : Store) (orderID : String) : Option Row :=
  s.find? (fun r => r.orderID == orderID)

/-- Statement `select ... from sales where paymentAddr=?` run through `QueryRow`. -/
def selectByPaymentAddr (s : Store) (addr : String) : Option Row :=
  s.find? (fun r => r.paymentAddr == addr)

/-- Statement `insert or replace into sales(...) values(...)`: the row holding the
primary key is deleted and the new row is inserted. -/
def insertOrReplace (s : Store) (row : Row) : Store :=
  s.filter (fun r => !(r.orderID == row.orderID)) ++ [row]

/-- The variable `address` of `Put` (lines 58 to 63): the buyer's address under
DIRECT, the vendor's confirmed address under ADDRESS_REQUEST, otherwise the
zero value of a string. -/
def paymentAddress (contract : RicardianContract) (payment : Order_Payment) :
    Except Panic String :=
  if payment.Method = Order_Payment_Method.DIRECT then
    pure payment.Address
  else if payment.Method = Order_Payment_Method.ADDRESS_REQUEST then
    (deref contract.VendorOrderConfirmation).map (fun confirmation => confirmation.PaymentAddress)
  else
    pure ""

/-- The argument list of `stmt.Exec` in `Put` (lines 51 to 81); a nil dereference or
an empty slice among the operands panics before the statement runs. -/
def putRow (x : Ext) (orderID : String) (contract : RicardianContract) (state : OrderState)
    (readInt : Int) (out : String) (fundedInt : Int) (serializedTransactions : Option String) :
    Except Panic Row := do
  let buyerOrder ← deref contract.BuyerOrder
  let buyerID ← deref buyerOrder.BuyerID
  let blockchainID := buyerID.BlockchainID
  let shippingName :=
    match buyerOrder.Shipping with
    | some sh => x.ToLower sh.ShipTo
    | none => ""
  let shippingAddress :=
    match buyerOrder.Shipping with
    | some sh => x.ToLower sh.Address
    | none => ""
  let payment ← deref buyerOrder.Payment
  let address ← paymentAddress contract payment
  let timestamp ← deref buyerOrder.Timestamp
  let listingPtr ← first contract.VendorListings
  let listing ← deref listingPtr
  let item ← deref listing.Item
  let imagePtr ← first item.Images
  let image ← deref imagePtr
  pure {
    orderID := orderID
    contract := out
    state := state.toInt
    read := readInt
    date := timestamp.Seconds
    total := intOfUint64 payment.Amount
    thumbnail := image.Hash
    buyerID := buyerID.Guid
    buyerBlockchainID := blockchainID
    title := x.ToLower item.Title
    shippingName := shippingName
    shippingAddress := shippingAddress
    paymentAddr := address
    funded := fundedInt
    transactions := serializedTransactions }

/-- Method `SalesDB.Put`. -/
def Put (x : Ext) (s : Store) (orderID : String) (contract : RicardianContract)
    (state : OrderState) (read : Bool) : Outcome Unit × Store :=
  -- read in the current transactions if they exist; a failed Scan leaves the zero values
  let fundedInt : Int :=
    match selectByOrderID s orderID with
    | some r => r.funded
    | none => 0
  let serializedTransactions : Option String :=
    match selectByOrderID s orderID with
    | some r => r.transactions
    | none => none
  let readInt : Int := if read then 1 else 0
  let out := x.MarshalToString contract
  match putRow x orderID contract state readInt out fundedInt serializedTransactions with
  | .error p => (.panic p, s)
  | .ok row => (.ok (), insertOrReplace s row)

/-- Method `SalesDB.MarkAsRead`: `update sales set read=1 where orderID=?`. -/
def MarkAsRead (s : Store) (orderID : String) : Outcome Unit × Store :=
  (.ok (), s.map (fun r => if r.orderID == orderID then { r with read := 1 } else r))

/-- Method `SalesDB.UpdateFunding`:
`update sales set funded=?, transactions=? where orderID=?`. -/
def UpdateFunding (x : Ext) (s : Store) (orderId : String) (funded : Bool)
    (records : List TransactionRecord) : Outcome Unit × Store :=
  let fundedInt : Int := if funded then 1 else 0
  let serializedTransactions := x.Marshal records
  (.ok (), s.map (fun r =>
    if r.orderID == orderId then
      { r with funded := fundedInt, transactions := serializedTransactions }
    else r))

/-- Method `SalesDB.Delete`: `delete from sales where orderID=?`. -/
def Delete (s : Store) (orderID : String) : Outcome Unit × Store :=
  (.ok (), s.filter (fun r => !(r.orderID == orderID)))

/-- The order of the primary-key index of `sales`: keys compare as their character
sequences (the BINARY collation of SQLite on UTF-8 text). -/
def keyLE (a b : String) : Prop :=
  a.data ≤ b.data

instance keyLE.decidable : DecidableRel keyLE :=
  fun a b => inferInstanceAs (Decidable (a.data ≤ b.data))

/-- Method `SalesDB.GetAll`: `select orderID from sales`, read off the primary-key
index and so returned in key order. -/
def GetAll (s : Store) : Outcome (List String) × Store :=
  (.ok ((s.map (fun r => r.orderID)).insertionSort keyLE), s)

/-- The call `json.Unmarshal(serializedTransactions, records)` of line 169: `records`
is passed by value, not by pointer, so the library returns an
`InvalidUnmarshalError` (discarded by the caller) and the caller's slice keeps
the value it had. -/
def unmarshalByValue (_serializedTransactions : Option String)
    (records : List TransactionRecord) : List TransactionRecord :=
  records

/-- Method `SalesDB.GetByPaymentAddress`. -/
def GetByPaymentAddress (x : Ext) (s : Store) (addr : Address) :
    Outcome (RicardianContract × OrderState × Bool × List TransactionRecord) × Store :=
  match selectByPaymentAddr s addr.EncodeAddress with
  | none => (.error .ErrNoRows, s)
  | some r =>
    match x.UnmarshalString r.contract with
    | none => (.error .unmarshalError, s)
    | some rc =>
      let funded := decide (r.funded = 1)
      let records : List TransactionRecord := unmarshalByValue r.transactions []
      (.ok (rc, OrderState.ofInt r.state, funded, records), s)

/-! Input classes and sample data -/

/-- A contract lacking a nested field the row derivation reads: no vendor listing
(or a nil first listing), a first listing without an image (no item, no image,
or a nil first image), no buyer order, no buyer identity, no timestamp, no
payment, or no vendor order confirmation under ADDRESS_REQUEST. -/
def RicardianContract.malformed (c : RicardianContract) : Bool :=
  (match c.VendorListings with
    | [] => true
    | none :: _ => true
    | some listing :: _ =>
      match listing.Item with
      | none => true
      | some item =>
        match item.Images with
        | [] => true
        | none :: _ => true
        | some _ :: _ => false)
  ||
  (match c.BuyerOrder with
    | none => true
    | some order =>
      order.BuyerID.isNone || order.Timestamp.isNone ||
      match order.Payment with
      | none => true
      | some payment =>
        payment.Method == Order_Payment_Method.ADDRESS_REQUEST &&
          c.VendorOrderConfirmation.isNone)

namespace Sample

/-- A well-formed contract with direct payment to the given address. -/
def directContract (addr : String) : RicardianContract :=
  { VendorListings := [some { Item := some { Title := "Widget", Images := [some { Hash := "zb2rhe" }] } }]
    BuyerOrder := some
      { BuyerID := some { Guid := "QmBuyer", BlockchainID := "@buyer" }
        Shipping := some { ShipTo := "Ada", Address := "1 Main St" }
        Payment := some { Method := Order_Payment_Method.DIRECT, Address := addr, Amount := 5000 }
        Timestamp := some { Seconds := 1480000000 } }
    VendorOrderConfirmation := none }

/-- A contract whose only listing has no image. -/
def noImageContract : RicardianContract :=
  { VendorListings := [some { Item := some { Title := "Widget", Images := [] } }]
    BuyerOrder := (directContract "addr1").BuyerOrder
    VendorOrderConfirmation := none }

/-- A serialiser pair for the sample contracts: a direct-payment contract is written
as its payment address and read back as `directContract`. -/
def ext : Ext :=
  { MarshalToString := fun c =>
      match c.BuyerOrder with
      | some order =>
        match order.Payment with
        | some payment => payment.Address
        | none => ""
      | none => ""
    UnmarshalString := fun str => if str = "" then none else some (directContract str)
    Marshal := fun records => some (String.join (records.map (fun t => t.Txid)))
    ToLower := fun str => String.mk (str.data.map Char.toLower) }

/-- Order state `PENDING`. -/
def pending : OrderState := ⟨0, by decide, by decide⟩

/-- A wallet transaction record. -/
def tx1 : TransactionRecord := { Txid := "ab12", Index := 0, Value := 5000 }

/-- The address the sample contract pays to. -/
def addr1 : Address := { EncodeAddress := "addr1" }

/-- The store after `Put("order1", directContract "addr1", PENDING, false)` on the
empty table. -/
def store1 : Store := (Put ext [] "order1" (directContract "addr1") pending false).2

/-- The store after a further `Put("order2", ...)` of a contract paying to the same
address. -/
def store2 : Store := (Put ext store1 "order2" (directContract "addr1") pending true).2

/-- Order state `FUNDED`. -/
def funded : OrderState := ⟨2, by decide, by decide⟩

/-- A second address. -/
def addr3 : Address := { EncodeAddress := "addr3" }

/-- The store after `Put("order0", ...)` on `store1`, of a contract paying to `addr3`,
in state `FUNDED`: rows order1 (state 0) and order0 (state 2), in that rowid
order. -/
def store3 : Store := (Put ext store1 "order0" (directContract "addr3") funded true).2

end Sample

/-! Lemmas on the row derivation -/

theorem OrderState.ofInt_toInt (st : OrderState) : OrderState.ofInt st.toInt = st := by
  rcases st with ⟨n, h1, h2⟩
  simp only [OrderState.ofInt, OrderState.mk.injEq]
  omega



theorem deref_eq_ok {α : Type} {o : Option α} {a : α} : deref o = .ok a ↔ o = some a := by
  cases o <;> simp [deref]

theorem first_eq_ok {α : Type} {l : List α} {a : α} : first l = .ok a ↔ l.head? = some a := by
  cases l <;> simp [first]

theorem bind_eq_ok {α β : Type} {m : Except Panic α} {g : α → Except Panic β} {b : β} :
    (m >>= g) = .ok b ↔ ∃ a, m = .ok a ∧ g a = .ok b := by
  cases m <;> simp [bind, Except.bind]

theorem pure_eq_ok {α : Type} {a b : α} : (pure a : Except Panic α) = .ok b ↔ a = b := by
  simp [pure, Except.pure]

/-- The payment address `Put` stores. -/
theorem putRow_ok_iff {x : Ext} {id : String} {c : RicardianContract} {st : OrderState}
    {rd : Int} {out : String} {f : Int} {tx : Option String} {row : Row} :
    putRow x id c st rd out f tx = .ok row ↔
    ∃ bo bid pay ts l item img,
      c.BuyerOrder = some bo ∧ bo.BuyerID = some bid ∧ bo.Payment = some pay ∧
      bo.Timestamp = some ts ∧ c.VendorListings.head? = some (some l) ∧
      l.Item = some item ∧ item.Images.head? = some (some img) ∧
      ∃ address, paymentAddress c pay = .ok address ∧
        row = {
          orderID := id
          contract := out
          state := st.toInt
          read := rd
          date := ts.Seconds
          total := intOfUint64 pay.Amount
          thumbnail := img.Hash
          buyerID := bid.Guid
          buyerBlockchainID := bid.BlockchainID
          title := x.ToLower item.Title
          shippingName := (match bo.Shipping with
            | some sh => x.ToLower sh.ShipTo
            | none => "")
          shippingAddress := (match bo.Shipping with
            | some sh => x.ToLower sh.Address
            | none => "")
          paymentAddr := address
          funded := f
          transactions := tx } := by
  simp only [putRow, bind_eq_ok, deref_eq_ok, first_eq_ok, pure_eq_ok]
  constructor
  · rintro ⟨bo, hbo, bid, hbid, pay, hpay, address, haddr, ts, hts, lp, hlp, l, rfl, item, hitem,
      ip, hip, img, rfl, hrow⟩
    exact ⟨bo, bid, pay, ts, l, item, img, hbo, hbid, hpay, hts, hlp, hitem, hip, address,
      haddr, hrow.symm⟩
  · rintro ⟨bo, bid, pay, ts, l, item, img, hbo, hbid, hpay, hts, hlp, hitem, hip, address, haddr,
      hrow⟩
    exact ⟨bo, hbo, bid, hbid, pay, hpay, address, haddr, ts, hts, some l, hlp, l, rfl, item, hitem,
      some img, hip, img, rfl, hrow.symm⟩

theorem paymentAddress_eq_ok {c : RicardianContract} {pay : Order_Payment} {a : String} :
    paymentAddress c pay = .ok a ↔
      (pay.Method = Order_Payment_Method.DIRECT → a = pay.Address) ∧
      (pay.Method = Order_Payment_Method.ADDRESS_REQUEST →
        ∃ voc, c.VendorOrderConfirmation = some voc ∧ a = voc.PaymentAddress) ∧
      (pay.Method = Order_Payment_Method.MODERATED → a = "") := by
  rcases pay with ⟨m, pa, amt⟩
  rcases c with ⟨ls, bo, voc⟩
  cases m <;> cases voc <;>
    simp [paymentAddress, deref, Except.map, pure, Except.pure, eq_comm]


theorem head?_eq_some_iff {α : Type} {l : List α} {a : α} :
    l.head? = some a ↔ ∃ rest, l = a :: rest := by
  cases l <;> simp

theorem putRow_ok_of_wellformed (x : Ext) (id : String) (c : RicardianContract)
    (st : OrderState) (rd : Int) (out : String) (f : Int) (tx : Option String)
    (h : c.malformed = false) : ∃ row, putRow x id c st rd out f tx = .ok row := by
  rcases c with ⟨ls, bo, voc⟩
  simp only [RicardianContract.malformed, Bool.or_eq_false_iff] at h
  obtain ⟨hl, hb⟩ := h
  cases bo with
  | none => simp at hb
  | some bo =>
    rcases bo with ⟨bid, sh, pay, ts⟩
    cases bid with
    | none => simp at hb
    | some bid =>
    cases ts with
    | none => simp at hb
    | some ts =>
    cases pay with
    | none => simp at hb
    | some pay =>
    rcases ls with _ | ⟨l0, ls⟩
    · simp at hl
    cases l0 with
    | none => simp at hl
    | some l0 =>
    rcases l0 with ⟨item⟩
    cases item with
    | none => simp at hl
    | some item =>
    rcases item with ⟨title, imgs⟩
    rcases imgs with _ | ⟨i0, imgs⟩
    · simp at hl
    cases i0 with
    | none => simp at hl
    | some i0 =>
    have haddr : ∃ a, paymentAddress ⟨some ⟨some ⟨title, some i0 :: imgs⟩⟩ :: ls,
        some ⟨some bid, sh, some pay, some ts⟩, voc⟩ pay = .ok a := by
      rcases pay with ⟨m, pa, amt⟩
      cases m <;> cases voc <;>
        simp [paymentAddress, deref, Except.map, pure, Except.pure] at hb ⊢
    obtain ⟨a, ha⟩ := haddr
    exact ⟨_, putRow_ok_iff.mpr ⟨_, bid, pay, ts, _, _, i0, rfl, rfl, rfl, rfl, rfl, rfl, rfl, a,
      ha, rfl⟩⟩

theorem putRow_error_of_malformed (x : Ext) (id : String) (c : RicardianContract)
    (st : OrderState) (rd : Int) (out : String) (f : Int) (tx : Option String)
    (h : c.malformed = true) : ∃ p, putRow x id c st rd out f tx = .error p := by
  cases hp : putRow x id c st rd out f tx with
  | error p => exact ⟨p, rfl⟩
  | ok row =>
    exfalso
    obtain ⟨bo, bid, pay, ts, l, item, img, hbo, hbid, hpay, hts, hl, hitem, himg, a, ha, -⟩ :=
      putRow_ok_iff.mp hp
    obtain ⟨ls, hls⟩ := head?_eq_some_iff.mp hl
    obtain ⟨imgs, himgs⟩ := head?_eq_some_iff.mp himg
    have hvoc : pay.Method = Order_Payment_Method.ADDRESS_REQUEST →
        c.VendorOrderConfirmation.isNone = false := by
      intro hm
      obtain ⟨voc, hvoc, -⟩ := (paymentAddress_eq_ok.mp ha).2.1 hm
      simp [hvoc]
    have : c.malformed = false := by
      simp only [RicardianContract.malformed, hls, hitem, himgs, hbo, hbid, hts, hpay,
        Option.isNone_some, Bool.false_or, Bool.or_eq_false_iff, true_and, Bool.and_eq_false_imp,
        beq_iff_eq]
      exact hvoc
    rw [this] at h
    exact absurd h (by decide)

theorem Put_ok_iff {x : Ext} {s s' : Store} {id : String} {c : RicardianContract}
    {st : OrderState} {rd : Bool} :
    Put x s id c st rd = (.ok (), s') ↔
      ∃ row, putRow x id c st (if rd then 1 else 0) (x.MarshalToString c)
          (match selectByOrderID s id with
            | some r => r.funded
            | none => 0)
          (match selectByOrderID s id with
            | some r => r.transactions
            | none => none) = .ok row ∧
        s' = insertOrReplace s row := by
  unfold Put
  simp only
  split
  · rename_i p hp
    simp [hp]
  · rename_i row hp
    simp [hp, eq_comm]

/-! Lemmas on the table statements -/

theorem find?_none_of_forall_ne {s : Store} {g : Row → String} {k : String}
    (h : ∀ r ∈ s, g r ≠ k) : s.find? (fun r => g r == k) = none := by
  rw [List.find?_eq_none]
  intro r hr
  simpa using h r hr

theorem find?_first_match {pre : Store} {r : Row} {g : Row → String} {k : String}
    (post : Store) (hpre : ∀ q ∈ pre, g q ≠ k) (hr : g r = k) :
    (pre ++ r :: post).find? (fun q => g q == k) = some r := by
  induction pre with
  | nil => simp [List.find?, hr]
  | cons q pre ih =>
    have hq : g q ≠ k := hpre q (List.mem_cons_self _ _)
    have hq2 : (g q == k) = false := by simpa using hq
    rw [List.cons_append, List.find?_cons, hq2]
    exact ih (fun q2 h2 => hpre q2 (List.mem_cons_of_mem _ h2))

theorem map_update_eq_self {s : Store} {id : String} {g : Row → Row}
    (h : ∀ r ∈ s, r.orderID ≠ id) :
    s.map (fun r => if r.orderID == id then g r else r) = s := by
  induction s with
  | nil => rfl
  | cons r s ih =>
    have hr : (r.orderID == id) = false := by simpa using h r (List.mem_cons_self _ _)
    simp only [List.map_cons, hr]
    rw [ih (fun q hq => h q (List.mem_cons_of_mem _ hq))]
    rfl

theorem filter_ne_eq_self {s : Store} {id : String} (h : ∀ r ∈ s, r.orderID ≠ id) :
    s.filter (fun r => !(r.orderID == id)) = s := by
  rw [List.filter_eq_self]
  intro r hr
  simpa using h r hr

theorem forall₂_map_update (s : Store) (id : String) (g : Row → Row) :
    List.Forall₂ (fun r r' => (r.orderID = id → r' = g r) ∧ (r.orderID ≠ id → r' = r)) s
      (s.map (fun r => if r.orderID == id then g r else r)) := by
  induction s with
  | nil => exact List.Forall₂.nil
  | cons r s ih =>
    refine List.Forall₂.cons ?_ ih
    by_cases hr : r.orderID = id
    · simp [hr]
    · simp [hr]

theorem filter_insertOrReplace (s : Store) (row : Row) :
    (insertOrReplace s row).filter (fun r => r.orderID == row.orderID) = [row] := by
  unfold insertOrReplace
  rw [List.filter_append, List.filter_filter]
  simp

theorem filter_ne_insertOrReplace (s : Store) (row : Row) :
    (insertOrReplace s row).filter (fun r => !(r.orderID == row.orderID)) =
      s.filter (fun r => !(r.orderID == row.orderID)) := by
  unfold insertOrReplace
  rw [List.filter_append, List.filter_filter]
  simp

theorem selectByOrderID_insertOrReplace (s : Store) (row : Row) :
    selectByOrderID (insertOrReplace s row) row.orderID = some row := by
  unfold selectByOrderID insertOrReplace
  have h : s.filter (fun r => !(r.orderID == row.orderID)) ++ [row] =
      s.filter (fun r => !(r.orderID == row.orderID)) ++ row :: [] := rfl
  rw [h]
  refine find?_first_match (g := fun r => r.orderID) [] ?_ rfl
  intro q hq
  simpa using (List.mem_filter.mp hq).2

theorem selectByOrderID_map_update {s : Store} (id : String) {g : Row → Row}
    (hg : ∀ r, (g r).orderID = r.orderID) (h : ∃ r ∈ s, r.orderID = id) :
    ∃ r0, selectByOrderID (s.map (fun r => if r.orderID == id then g r else r)) id =
      some (g r0) := by
  induction s with
  | nil => obtain ⟨r, hr, -⟩ := h; cases hr
  | cons q s ih =>
    unfold selectByOrderID
    by_cases hq : q.orderID = id
    · refine ⟨q, ?_⟩
      simp [List.find?_cons, hq, hg]
    · have hrest : ∃ r ∈ s, r.orderID = id := by
        obtain ⟨r, hr, hrid⟩ := h
        rcases List.mem_cons.mp hr with rfl | hr
        · exact absurd hrid hq
        · exact ⟨r, hr, hrid⟩
      obtain ⟨r0, hr0⟩ := ih hrest
      refine ⟨r0, ?_⟩
      unfold selectByOrderID at hr0
      have hb : (q.orderID == id) = false := by simpa using hq
      rw [List.map_cons, List.find?_cons]
      simp only [hb, Bool.false_eq_true, if_false]
      exact hr0

theorem paymentAddr_of_mem_filter_map_update {s : Store} {id : String} {g : Row → Row}
    {q : Row} (hg : ∀ r, (g r).orderID = r.orderID)
    (hq : q ∈ (s.map (fun r => if r.orderID == id then g r else r)).filter
      (fun r => !(r.orderID == id))) :
    q ∈ s ∧ q.orderID ≠ id := by
  obtain ⟨hmem, hne⟩ := List.mem_filter.mp hq
  have hne2 : q.orderID ≠ id := by simpa using hne
  obtain ⟨r, hr, hrq⟩ := List.mem_map.mp hmem
  by_cases hrid : r.orderID = id
  · simp only [hrid, beq_self_eq_true, if_true] at hrq
    have : q.orderID = id := by rw [← hrq, hg, hrid]
    exact absurd this hne2
  · have hb : (r.orderID == id) = false := by simpa using hrid
    simp only [hb] at hrq
    have : r = q := by simpa using hrq
    exact ⟨this ▸ hr, hne2⟩

/-- The primary key survives `Put`: a table without duplicate orderIDs has none
after a successful call. -/
theorem Put_preserves_primary_key (x : Ext) (s s' : Store) (id : String)
    (c : RicardianContract) (st : OrderState) (rd : Bool)
    (hs : (s.map (fun r => r.orderID)).Nodup) (h : Put x s id c st rd = (.ok (), s')) :
    (s'.map (fun r => r.orderID)).Nodup := by
  obtain ⟨row, -, hs'⟩ := Put_ok_iff.mp h
  rw [hs']
  unfold insertOrReplace
  rw [List.map_append, List.nodup_append]
  refine ⟨(List.filter_sublist s).map _ |>.nodup hs, by simp, ?_⟩
  intro k hk1 hk2
  obtain ⟨q, hq, rfl⟩ := List.mem_map.mp hk1
  have hne := (List.mem_filter.mp hq).2
  have hk : q.orderID = row.orderID := by simpa using hk2
  simp [hk] at hne

/-- The primary key survives `MarkAsRead`, `UpdateFunding` and `Delete`. -/
theorem updates_preserve_primary_key (x : Ext) (s : Store) (id : String) (funded : Bool)
    (T : List TransactionRecord) (hs : (s.map (fun r => r.orderID)).Nodup) :
    ((MarkAsRead s id).2.map (fun r => r.orderID)).Nodup ∧
    ((UpdateFunding x s id funded T).2.map (fun r => r.orderID)).Nodup ∧
    ((Delete s id).2.map (fun r => r.orderID)).Nodup := by
  refine ⟨?_, ?_, ?_⟩
  · have : (MarkAsRead s id).2.map (fun r => r.orderID) = s.map (fun r => r.orderID) := by
      unfold MarkAsRead
      rw [List.map_map]
      refine List.map_congr_left ?_
      intro r _
      by_cases hr : r.orderID = id <;> simp [hr]
    rw [this]; exact hs
  · have : (UpdateFunding x s id funded T).2.map (fun r => r.orderID) =
        s.map (fun r => r.orderID) := by
      unfold UpdateFunding
      rw [List.map_map]
      refine List.map_congr_left ?_
      intro r _
      by_cases hr : r.orderID = id <;> simp [hr]
    rw [this]; exact hs
  · exact ((List.filter_sublist s).map _).nodup hs

/-- On the sample table `store3`, whose rows were inserted as order1 then order0,
`GetAll` lists the keys in key order. -/
theorem GetAll_key_order : (GetAll Sample.store3).1 = .ok ["order0", "order1"] := by
  decide

/-! Claims -/

/-- C4. `UpdateFunding(id, funded, T)` returns success; position by position, the row
whose orderID is `id` is the old row with only `funded` set to the flag (0 or 1)
and `transactions` set to the serialisation of `T`, every other row is unchanged;
and when no row has orderID `id` the table is unchanged. -/
theorem UpdateFunding_frame (x : Ext) (s : Store) (id : String) (funded : Bool)
    (T : List TransactionRecord) :
    (UpdateFunding x s id funded T).1 = .ok () ∧
    List.Forall₂
      (fun r r' =>
        (r.orderID = id →
          r' = { r with funded := if funded then 1 else 0, transactions := x.Marshal T }) ∧
        (r.orderID ≠ id → r' = r))
      s (UpdateFunding x s id funded T).2 ∧
    ((∀ r ∈ s, r.orderID ≠ id) → (UpdateFunding x s id funded T).2 = s) := by
  refine ⟨rfl, ?_, ?_⟩
  · exact forall₂_map_update s id
      (fun r => { r with funded := if funded then 1 else 0, transactions := x.Marshal T })
  · intro h
    exact map_update_eq_self h

/-- Witness for C4 on the one-row sample table: updating an absent order changes
nothing. -/
theorem UpdateFunding_frame_witness :
    (∀ r ∈ Sample.store1, r.orderID ≠ "order9") ∧
    (UpdateFunding Sample.ext Sample.store1 "order9" true [Sample.tx1]).2 = Sample.store1 :=
  ⟨by decide,
    (UpdateFunding_frame Sample.ext Sample.store1 "order9" true [Sample.tx1]).2.2 (by decide)⟩

/-- C10. For an orderID with no row, `MarkAsRead` and `Delete` return success and
leave the table unchanged, so `GetAll` and every `GetByPaymentAddress` answer as
before; in general `MarkAsRead(id)` returns success and changes only the read
flag, to 1, of the row whose orderID is `id`. -/
theorem missing_row_noop (x : Ext) (s : Store) (id : String) :
    ((∀ r ∈ s, r.orderID ≠ id) →
      MarkAsRead s id = (.ok (), s) ∧ Delete s id = (.ok (), s) ∧
      GetAll (MarkAsRead s id).2 = GetAll s ∧ GetAll (Delete s id).2 = GetAll s ∧
      (∀ a, GetByPaymentAddress x (MarkAsRead s id).2 a = GetByPaymentAddress x s a) ∧
      (∀ a, GetByPaymentAddress x (Delete s id).2 a = GetByPaymentAddress x s a)) ∧
    (MarkAsRead s id).1 = .ok () ∧
    List.Forall₂
      (fun r r' => (r.orderID = id → r' = { r with read := 1 }) ∧ (r.orderID ≠ id → r' = r))
      s (MarkAsRead s id).2 := by
  refine ⟨?_, rfl, forall₂_map_update s id (fun r => { r with read := 1 })⟩
  intro h
  have h1 : MarkAsRead s id = (.ok (), s) := by
    unfold MarkAsRead
    rw [map_update_eq_self h]
  have h2 : Delete s id = (.ok (), s) := by
    unfold Delete
    rw [filter_ne_eq_self h]
  refine ⟨h1, h2, ?_, ?_, ?_, ?_⟩
  · rw [h1]
  · rw [h2]
  · intro a; rw [h1]
  · intro a; rw [h2]

/-- Witness for C10 on the one-row sample table and the absent order
`nonexistent`. -/
theorem missing_row_noop_witness :
    (∀ r ∈ Sample.store1, r.orderID ≠ "nonexistent") ∧
    MarkAsRead Sample.store1 "nonexistent" = (.ok (), Sample.store1) ∧
    Delete Sample.store1 "nonexistent" = (.ok (), Sample.store1) :=
  ⟨by decide,
    ((missing_row_noop Sample.ext Sample.store1 "nonexistent").1 (by decide)).1,
    ((missing_row_noop Sample.ext Sample.store1 "nonexistent").1 (by decide)).2.1⟩

/-- C5. `GetByPaymentAddress(a)` returns the not-found error exactly when no row's
paymentAddr equals the encoding of `a`; when `r` is the first row whose
paymentAddr matches and its contract decodes to `rc`, the call succeeds with
`rc`, with the state of `r` (the stored integer itself when it is in the int32
range, in general the int32 congruent to it modulo 2^32) and with funded true
exactly when the stored flag is 1; the table is never modified. -/
theorem GetByPaymentAddress_lookup (x : Ext) (s : Store) (a : Address) :
    ((GetByPaymentAddress x s a).1 = .error .ErrNoRows ↔
      ∀ r ∈ s, r.paymentAddr ≠ a.EncodeAddress) ∧
    (∀ pre r post rc, s = pre ++ r :: post →
      (∀ q ∈ pre, q.paymentAddr ≠ a.EncodeAddress) → r.paymentAddr = a.EncodeAddress →
      x.UnmarshalString r.contract = some rc →
      ∃ st records, (GetByPaymentAddress x s a).1 =
          .ok (rc, st, decide (r.funded = 1), records) ∧
        (st.toInt - r.state) % 4294967296 = 0 ∧
        (-2147483648 ≤ r.state → r.state < 2147483648 → st.toInt = r.state)) ∧
    (GetByPaymentAddress x s a).2 = s := by
  refine ⟨?_, ?_, ?_⟩
  · constructor
    · intro h r hr heq
      unfold GetByPaymentAddress selectByPaymentAddr at h
      cases hf : s.find? (fun r => r.paymentAddr == a.EncodeAddress) with
      | none =>
        rw [List.find?_eq_none] at hf
        exact hf r hr (by simpa using heq)
      | some r0 =>
        rw [hf] at h
        cases hu : x.UnmarshalString r0.contract with
        | none => simp [hu] at h
        | some rc => simp [hu] at h
    · intro h
      unfold GetByPaymentAddress selectByPaymentAddr
      rw [find?_none_of_forall_ne h]
  · intro pre r post rc hs hpre hr hu
    refine ⟨OrderState.ofInt r.state, [], ?_, ?_, ?_⟩
    · unfold GetByPaymentAddress selectByPaymentAddr
      rw [hs, find?_first_match post hpre hr]
      simp only [hu]
      rfl
    · show ((r.state + 2147483648) % 4294967296 - 2147483648 - r.state) % 4294967296 = 0
      omega
    · intro hlo hhi
      show (r.state + 2147483648) % 4294967296 - 2147483648 = r.state
      omega
  · unfold GetByPaymentAddress
    cases selectByPaymentAddr s a.EncodeAddress with
    | none => rfl
    | some r0 =>
      cases hu : x.UnmarshalString r0.contract with
      | none => simp only [hu]
      | some rc => simp only [hu]

/-- Witness for C5 on the sample table `store3`: the first row (state 0) pays to
another address, the second row pays to `addr3` and is in state 2, and the
lookup by `addr3` returns its contract, state 2 and funded false. -/
theorem GetByPaymentAddress_lookup_witness :
    ∃ records, (GetByPaymentAddress Sample.ext Sample.store3 Sample.addr3).1 =
      .ok (Sample.directContract "addr3", Sample.funded, false, records) := by
  obtain ⟨st, records, hres, -, hin⟩ :=
    (GetByPaymentAddress_lookup Sample.ext Sample.store3 Sample.addr3).2.1
      [Sample.store3.get ⟨0, by decide⟩] (Sample.store3.get ⟨1, by decide⟩) []
      (Sample.directContract "addr3") (by decide) (by decide) (by decide) (by decide)
  have hst : st.toInt = 2 := (hin (by decide) (by decide)).trans (by decide)
  have hfunded : st = Sample.funded := by
    rcases st with ⟨n, hl, hu⟩
    cases hst
    rfl
  refine ⟨records, ?_⟩
  rw [hres, hfunded]
  have hflag : decide ((Sample.store3.get ⟨1, by decide⟩).funded = 1) = false := by decide
  rw [hflag]

/-- C2. A successful `Put(id, contract, state, read)` leaves exactly one row for `id`;
its content columns are the values derived from the arguments, its funded flag
and transactions blob are those of the row `id` had before the call (0 and nil
when there was none), and the rows with another orderID are unchanged. -/
theorem Put_postcondition (x : Ext) (s s' : Store) (id : String) (c : RicardianContract)
    (st : OrderState) (rd : Bool) (h : Put x s id c st rd = (.ok (), s')) :
    ∃ row bo bid pay ts l item img,
      c.BuyerOrder = some bo ∧ bo.BuyerID = some bid ∧ bo.Payment = some pay ∧
      bo.Timestamp = some ts ∧ c.VendorListings.head? = some (some l) ∧
      l.Item = some item ∧ item.Images.head? = some (some img) ∧
      s'.filter (fun r => r.orderID == id) = [row] ∧
      row.orderID = id ∧ row.contract = x.MarshalToString c ∧ row.state = st.toInt ∧
      row.read = (if rd then 1 else 0) ∧ row.date = ts.Seconds ∧
      row.total = intOfUint64 pay.Amount ∧
      (pay.Amount < 9223372036854775808 → row.total = (pay.Amount : Int)) ∧
      (9223372036854775808 ≤ pay.Amount → pay.Amount < 18446744073709551616 →
        row.total = (pay.Amount : Int) - 18446744073709551616) ∧
      row.thumbnail = img.Hash ∧
      row.buyerID = bid.Guid ∧ row.buyerBlockchainID = bid.BlockchainID ∧
      row.title = x.ToLower item.Title ∧
      row.shippingName = (match bo.Shipping with
        | some sh => x.ToLower sh.ShipTo
        | none => "") ∧
      row.shippingAddress = (match bo.Shipping with
        | some sh => x.ToLower sh.Address
        | none => "") ∧
      paymentAddress c pay = .ok row.paymentAddr ∧
      (pay.Method = Order_Payment_Method.DIRECT → row.paymentAddr = pay.Address) ∧
      (pay.Method = Order_Payment_Method.ADDRESS_REQUEST →
        ∃ voc, c.VendorOrderConfirmation = some voc ∧ row.paymentAddr = voc.PaymentAddress) ∧
      (pay.Method = Order_Payment_Method.MODERATED → row.paymentAddr = "") ∧
      (∀ pre old post, s = pre ++ old :: post → (∀ q ∈ pre, q.orderID ≠ id) →
        old.orderID = id → row.funded = old.funded ∧ row.transactions = old.transactions) ∧
      ((∀ q ∈ s, q.orderID ≠ id) → row.funded = 0 ∧ row.transactions = none) ∧
      s'.filter (fun r => !(r.orderID == id)) = s.filter (fun r => !(r.orderID == id)) := by
  obtain ⟨row, hrow, hs'⟩ := Put_ok_iff.mp h
  obtain ⟨bo, bid, pay, ts, l, item, img, hbo, hbid, hpay, hts, hl, hitem, himg, a, ha, hr⟩ :=
    putRow_ok_iff.mp hrow
  have hid : row.orderID = id := by rw [hr]
  have htotal : row.total = intOfUint64 pay.Amount := by rw [hr]
  have hpa : row.paymentAddr = a := by rw [hr]
  obtain ⟨h1, h2, h3⟩ := paymentAddress_eq_ok.mp ha
  refine ⟨row, bo, bid, pay, ts, l, item, img, hbo, hbid, hpay, hts, hl, hitem, himg, ?_, hid,
    ?_, ?_, ?_, ?_, htotal, ?_, ?_, ?_, ?_, ?_, ?_, ?_, ?_, ?_, ?_, ?_, ?_, ?_, ?_, ?_⟩
  · rw [hs', ← hid]; exact filter_insertOrReplace s row
  · rw [hr]
  · rw [hr]
  · rw [hr]
  · rw [hr]
  · intro hlt
    rw [htotal]
    unfold intOfUint64
    rw [Nat.mod_eq_of_lt (by omega), if_pos hlt]
  · intro hge hlt
    rw [htotal]
    unfold intOfUint64
    rw [Nat.mod_eq_of_lt hlt, if_neg (by omega)]
  · rw [hr]
  · rw [hr]
  · rw [hr]
  · rw [hr]
  · rw [hr]
  · rw [hr]
  · rw [hr]; exact ha
  · intro hm; rw [hpa]; exact h1 hm
  · intro hm
    obtain ⟨voc, hvoc, hv⟩ := h2 hm
    exact ⟨voc, hvoc, by rw [hpa]; exact hv⟩
  · intro hm; rw [hpa]; exact h3 hm
  · intro pre old post hs hpre hold
    have hsel : selectByOrderID s id = some old := by
      unfold selectByOrderID
      rw [hs]
      exact find?_first_match (g := fun r => r.orderID) post hpre hold
    rw [hr, hsel]
    exact ⟨rfl, rfl⟩
  · intro hno
    have hsel : selectByOrderID s id = none := by
      unfold selectByOrderID
      exact find?_none_of_forall_ne (g := fun r => r.orderID) hno
    rw [hr, hsel]
    exact ⟨rfl, rfl⟩
  · rw [hs', ← hid]; exact filter_ne_insertOrReplace s row

/-- Witness for C2: the second `Put` of the sample run succeeds on the one-row
table and stores, for order2, state 0, read 1, date 1480000000, total 5000,
payment address `addr1`, funded 0 and no transactions. -/
theorem Put_postcondition_witness :
    ∃ row, Sample.store2.filter (fun r => r.orderID == "order2") = [row] ∧
      row.orderID = "order2" ∧ row.state = 0 ∧ row.read = 1 ∧ row.date = 1480000000 ∧
      row.total = 5000 ∧ row.thumbnail = "zb2rhe" ∧ row.buyerID = "QmBuyer" ∧
      row.buyerBlockchainID = "@buyer" ∧ row.paymentAddr = "addr1" ∧
      row.funded = 0 ∧ row.transactions = none := by
  obtain ⟨row, bo, bid, pay, ts, l, item, img, hbo, hbid, hpay, hts, hl, hitem, himg, hf, hid,
      _, hstate, hrd, hdate, _, htot, _, hthumb, hbuyer, hbc, _, _, _, _, hdir, _, _, _, hnew,
      _⟩ :=
    Put_postcondition Sample.ext Sample.store1 Sample.store2 "order2"
      (Sample.directContract "addr1") Sample.pending true (by decide)
  simp only [Sample.directContract, Option.some.injEq] at hbo
  subst hbo
  simp only [Option.some.injEq] at hbid hpay hts
  subst hbid hpay hts
  simp only [Sample.directContract, List.head?_cons, Option.some.injEq] at hl
  subst hl
  simp only [Option.some.injEq] at hitem
  subst hitem
  simp only [List.head?_cons, Option.some.injEq] at himg
  subst himg
  exact ⟨row, hf, hid, hstate, hrd, hdate, htot (by decide), hthumb, hbuyer, hbc, hdir rfl,
    (hnew (by decide)).1, (hnew (by decide)).2⟩

/-- C6. After a successful `Put`, the paymentAddr of the row stored for the order is
the buyer order's payment `Address` under DIRECT, the vendor order
confirmation's `PaymentAddress` under ADDRESS_REQUEST, and the empty string
under every other payment method. -/
theorem Put_paymentAddr (x : Ext) (s s' : Store) (id : String) (c : RicardianContract)
    (st : OrderState) (rd : Bool) (h : Put x s id c st rd = (.ok (), s')) :
    ∃ row bo pay,
      s'.filter (fun r => r.orderID == id) = [row] ∧
      c.BuyerOrder = some bo ∧ bo.Payment = some pay ∧
      (pay.Method = Order_Payment_Method.DIRECT → row.paymentAddr = pay.Address) ∧
      (pay.Method = Order_Payment_Method.ADDRESS_REQUEST →
        ∃ voc, c.VendorOrderConfirmation = some voc ∧ row.paymentAddr = voc.PaymentAddress) ∧
      (pay.Method ≠ Order_Payment_Method.DIRECT →
        pay.Method ≠ Order_Payment_Method.ADDRESS_REQUEST → row.paymentAddr = "") := by
  obtain ⟨row, hrow, hs'⟩ := Put_ok_iff.mp h
  obtain ⟨bo, bid, pay, ts, l, item, img, hbo, hbid, hpay, hts, hl, hitem, himg, a, ha, hr⟩ :=
    putRow_ok_iff.mp hrow
  have hid : row.orderID = id := by rw [hr]
  have hpa : row.paymentAddr = a := by rw [hr]
  obtain ⟨h1, h2, h3⟩ := paymentAddress_eq_ok.mp ha
  refine ⟨row, bo, pay, ?_, hbo, hpay, ?_, ?_, ?_⟩
  · rw [hs', ← hid]; exact filter_insertOrReplace s row
  · intro hm; rw [hpa]; exact h1 hm
  · intro hm
    obtain ⟨voc, hvoc, hv⟩ := h2 hm
    exact ⟨voc, hvoc, by rw [hpa]; exact hv⟩
  · intro hd har
    rw [hpa]
    apply h3
    cases hm : pay.Method
    · exact absurd hm har
    · exact absurd hm hd
    · rfl

/-- Witness for C6: the sample direct-payment contract stores `addr1`. -/
theorem Put_paymentAddr_witness :
    ∃ row, Sample.store1.filter (fun r => r.orderID == "order1") = [row] ∧
      row.paymentAddr = "addr1" := by
  obtain ⟨row, bo, pay, hf, hbo, hpay, hd, _, _⟩ :=
    Put_paymentAddr Sample.ext [] Sample.store1 "order1" (Sample.directContract "addr1")
      Sample.pending false (by decide)
  refine ⟨row, hf, ?_⟩
  simp only [Sample.directContract, Option.some.injEq] at hbo
  subst hbo
  simp only [Option.some.injEq] at hpay
  subst hpay
  exact hd rfl

/-- C7. `Put` of a malformed contract (no vendor listing, first listing without an
image, or a missing buyer order, buyer identity, timestamp, payment or, under
ADDRESS_REQUEST, vendor order confirmation) fails, by a runtime panic, and the
table is the one before the call. -/
theorem Put_malformed_fails (x : Ext) (s : Store) (id : String) (c : RicardianContract)
    (st : OrderState) (rd : Bool) (h : c.malformed = true) :
    ∃ p, Put x s id c st rd = (.panic p, s) := by
  obtain ⟨p, hp⟩ := putRow_error_of_malformed x id c st (if rd then 1 else 0)
    (x.MarshalToString c)
    (match selectByOrderID s id with
      | some r => r.funded
      | none => 0)
    (match selectByOrderID s id with
      | some r => r.transactions
      | none => none) h
  refine ⟨p, ?_⟩
  unfold Put
  simp only [hp]

/-- Witness for C7: a contract whose listing has no image, put over an existing
row. -/
theorem Put_malformed_fails_witness :
    Sample.noImageContract.malformed = true ∧
    ∃ p, Put Sample.ext Sample.store1 "order1" Sample.noImageContract Sample.pending false =
      (.panic p, Sample.store1) :=
  ⟨by decide,
    Put_malformed_fails Sample.ext Sample.store1 "order1" Sample.noImageContract Sample.pending
      false (by decide)⟩

/-- C9. When `Put(id, contract, state, read)` succeeds, performing it a second time
succeeds and leaves the table exactly as the first one left it, funded flag and
transactions blob included. -/
theorem Put_idempotent (x : Ext) (s s' : Store) (id : String) (c : RicardianContract)
    (st : OrderState) (rd : Bool) (h : Put x s id c st rd = (.ok (), s')) :
    Put x s' id c st rd = (.ok (), s') := by
  obtain ⟨row, hrow, hs'⟩ := Put_ok_iff.mp h
  obtain ⟨_, _, _, _, _, _, _, _, _, _, _, _, _, _, _, _, hr⟩ := putRow_ok_iff.mp hrow
  have hid : row.orderID = id := by rw [hr]
  have hsel : selectByOrderID s' id = some row := by
    rw [hs', ← hid]; exact selectByOrderID_insertOrReplace s row
  have hrow' : putRow x id c st (if rd then 1 else 0) (x.MarshalToString c) row.funded
      row.transactions = .ok row := by
    have hf : row.funded = (match selectByOrderID s id with
      | some r => r.funded
      | none => 0) := by rw [hr]
    have ht : row.transactions = (match selectByOrderID s id with
      | some r => r.transactions
      | none => none) := by rw [hr]
    rw [hf, ht]; exact hrow
  refine Put_ok_iff.mpr ⟨row, ?_, ?_⟩
  · rw [hsel]; exact hrow'
  · rw [hs']
    unfold insertOrReplace
    rw [List.filter_append, List.filter_filter]
    simp

/-- Witness for C9: the first `Put` of the sample run, repeated. -/
theorem Put_idempotent_witness :
    Put Sample.ext Sample.store1 "order1" (Sample.directContract "addr1") Sample.pending false =
      (.ok (), Sample.store1) :=
  Put_idempotent Sample.ext [] Sample.store1 "order1" (Sample.directContract "addr1")
    Sample.pending false (by decide)

/-- C3. For a well-formed contract `c` with direct payment to address `a`, on a table
with no row for `id` and no row paying to `a`, `Put(id, c, st, rd)` succeeds and
the lookup by `a` then returns `c`, `st`, funded false and no transaction
records, while the stored read flag is `rd`; the serialiser pair is assumed
to read `c` back from its own output. -/
theorem Put_then_lookup (x : Ext) (s : Store) (id : String) (c : RicardianContract)
    (st : OrderState) (rd : Bool) (a : Address)
    (hvalid : c.malformed = false)
    (hdirect : ∃ bo pay, c.BuyerOrder = some bo ∧ bo.Payment = some pay ∧
      pay.Method = Order_Payment_Method.DIRECT ∧ pay.Address = a.EncodeAddress)
    (hnoid : ∀ r ∈ s, r.orderID ≠ id)
    (hnoaddr : ∀ r ∈ s, r.paymentAddr ≠ a.EncodeAddress)
    (hcodec : x.UnmarshalString (x.MarshalToString c) = some c) :
    ∃ s', Put x s id c st rd = (.ok (), s') ∧
      GetByPaymentAddress x s' a = (.ok (c, st, false, []), s') ∧
      ∃ row, s'.filter (fun r => r.orderID == id) = [row] ∧
        row.read = (if rd then 1 else 0) := by
  have hsel : selectByOrderID s id = none :=
    find?_none_of_forall_ne (g := fun r => r.orderID) hnoid
  obtain ⟨row, hrow⟩ := putRow_ok_of_wellformed x id c st (if rd then 1 else 0)
    (x.MarshalToString c) 0 none hvalid
  have hput : Put x s id c st rd = (.ok (), insertOrReplace s row) := by
    refine Put_ok_iff.mpr ⟨row, ?_, rfl⟩
    rw [hsel]; exact hrow
  obtain ⟨bo, bid, pay, ts, l, item, img, hbo, hbid, hpay, hts, hl, hitem, himg, addr, ha, hr⟩ :=
    putRow_ok_iff.mp hrow
  obtain ⟨bo', pay', hbo', hpay', hm, hpa⟩ := hdirect
  rw [hbo] at hbo'
  cases hbo'
  rw [hpay] at hpay'
  cases hpay'
  have haddr : row.paymentAddr = a.EncodeAddress := by
    rw [hr]
    show addr = a.EncodeAddress
    rw [(paymentAddress_eq_ok.mp ha).1 hm, hpa]
  have hid : row.orderID = id := by rw [hr]
  refine ⟨insertOrReplace s row, hput, ?_, row, ?_, ?_⟩
  · unfold GetByPaymentAddress selectByPaymentAddr insertOrReplace
    have hfind : (s.filter (fun r => !(r.orderID == row.orderID)) ++ [row]).find?
        (fun r => r.paymentAddr == a.EncodeAddress) = some row := by
      refine find?_first_match (g := fun r => r.paymentAddr) [] ?_ haddr
      intro q hq
      exact hnoaddr q (List.mem_filter.mp hq).1
    rw [hfind]
    have hc : row.contract = x.MarshalToString c := by rw [hr]
    have hs : row.state = st.toInt := by rw [hr]
    have hf : row.funded = 0 := by rw [hr]
    simp only [hc, hcodec, hs, hf, OrderState.ofInt_toInt, unmarshalByValue]
    rfl
  · rw [← hid]; exact filter_insertOrReplace s row
  · rw [hr]

/-- Witness for C3: the first `Put` of the sample run on the empty table. -/
theorem Put_then_lookup_witness :
    ∃ s', Put Sample.ext [] "order1" (Sample.directContract "addr1") Sample.pending false =
        (.ok (), s') ∧
      GetByPaymentAddress Sample.ext s' Sample.addr1 =
        (.ok (Sample.directContract "addr1", Sample.pending, false, []), s') ∧
      ∃ row, s'.filter (fun r => r.orderID == "order1") = [row] ∧
        row.read = (if false then 1 else 0) :=
  Put_then_lookup Sample.ext [] "order1" (Sample.directContract "addr1") Sample.pending false
    Sample.addr1 (by decide) ⟨_, _, rfl, rfl, rfl, rfl⟩ (by decide) (by decide) (by decide)

/-- C1, as stated, fails twice on the sample data. On the one-row table, after
`UpdateFunding("order1", true, [tx1])` and a re-`Put`, the lookup reports funded
but an empty record list, not `[tx1]`. On the two-row table whose rows share a
payment address, after `UpdateFunding("order2", true, [tx1])` and a re-`Put` of
order2, the lookup answers from order1's row and reports funded false. -/
theorem funding_preservation_counterexample :
    ((∃ r ∈ Sample.store1, r.orderID = "order1") ∧
      (Put Sample.ext (UpdateFunding Sample.ext Sample.store1 "order1" true [Sample.tx1]).2
        "order1" (Sample.directContract "addr1") Sample.pending false).1 = .ok () ∧
      (GetByPaymentAddress Sample.ext
        (Put Sample.ext (UpdateFunding Sample.ext Sample.store1 "order1" true [Sample.tx1]).2
          "order1" (Sample.directContract "addr1") Sample.pending false).2 Sample.addr1).1 =
        .ok (Sample.directContract "addr1", Sample.pending, true, []) ∧
      ([] : List TransactionRecord) ≠ [Sample.tx1]) ∧
    ((∃ r ∈ Sample.store2, r.orderID = "order2") ∧
      (Put Sample.ext (UpdateFunding Sample.ext Sample.store2 "order2" true [Sample.tx1]).2
        "order2" (Sample.directContract "addr1") Sample.pending true).1 = .ok () ∧
      (GetByPaymentAddress Sample.ext
        (Put Sample.ext (UpdateFunding Sample.ext Sample.store2 "order2" true [Sample.tx1]).2
          "order2" (Sample.directContract "addr1") Sample.pending true).2 Sample.addr1).1 =
        .ok (Sample.directContract "addr1", Sample.pending, false, [])) := by
  decide

/-- C1, amended. On a table holding a row for `id`, after
`UpdateFunding(id, true, T)` and a successful `Put(id, c, st, rd)`, if `a` encodes
to the paymentAddr stored for `id`, no row of another order pays to `a`, and the
stored contract decodes to `rc`, then the lookup by `a` succeeds with `rc`, `st`
and funded true, and the row for `id` stores flag 1 and the serialisation of
`T`. -/
theorem funding_preserved (x : Ext) (s s2 : Store) (id : String) (T : List TransactionRecord)
    (c rc : RicardianContract) (st : OrderState) (rd : Bool) (a : Address)
    (hrow : ∃ r ∈ s, r.orderID = id)
    (hput : Put x (UpdateFunding x s id true T).2 id c st rd = (.ok (), s2))
    (haddr : ∀ r ∈ s2, r.orderID = id → r.paymentAddr = a.EncodeAddress)
    (huniq : ∀ r ∈ s, r.paymentAddr = a.EncodeAddress → r.orderID = id)
    (hcodec : x.UnmarshalString (x.MarshalToString c) = some rc) :
    (∃ records, GetByPaymentAddress x s2 a = (.ok (rc, st, true, records), s2)) ∧
    ∃ row, s2.filter (fun r => r.orderID == id) = [row] ∧ row.funded = 1 ∧
      row.transactions = x.Marshal T := by
  obtain ⟨row, hrowok, hs2⟩ := Put_ok_iff.mp hput
  obtain ⟨_, _, _, _, _, _, _, _, _, _, _, _, _, _, _, _, hr⟩ := putRow_ok_iff.mp hrowok
  have hg : ∀ r : Row, (Row.mk r.orderID r.contract r.state r.read r.date r.total r.thumbnail
      r.buyerID r.buyerBlockchainID r.title r.shippingName r.shippingAddress r.paymentAddr 1
      (x.Marshal T)).orderID = r.orderID := fun _ => rfl
  obtain ⟨r0, hr0⟩ := selectByOrderID_map_update id hg hrow
  have hr0' : selectByOrderID (UpdateFunding x s id true T).2 id =
      some (Row.mk r0.orderID r0.contract r0.state r0.read r0.date r0.total r0.thumbnail
        r0.buyerID r0.buyerBlockchainID r0.title r0.shippingName r0.shippingAddress
        r0.paymentAddr 1 (x.Marshal T)) := hr0
  have hid : row.orderID = id := by rw [hr]
  have hf : row.funded = 1 := by rw [hr, hr0']
  have ht : row.transactions = x.Marshal T := by rw [hr, hr0']
  have hc : row.contract = x.MarshalToString c := by rw [hr]
  have hst : row.state = st.toInt := by rw [hr]
  have hmem : row ∈ s2 := by rw [hs2]; unfold insertOrReplace; simp
  have hpa : row.paymentAddr = a.EncodeAddress := haddr row hmem hid
  refine ⟨⟨[], ?_⟩, row, ?_, hf, ht⟩
  · unfold GetByPaymentAddress selectByPaymentAddr
    have hfind : s2.find? (fun r => r.paymentAddr == a.EncodeAddress) = some row := by
      rw [hs2]
      unfold insertOrReplace
      refine find?_first_match (g := fun r => r.paymentAddr) [] ?_ hpa
      intro q hq hqa
      rw [hid] at hq
      obtain ⟨hqs, hqid⟩ := paymentAddr_of_mem_filter_map_update hg hq
      exact hqid (huniq q hqs hqa)
    rw [hfind]
    simp only [hc, hcodec, hst, hf, OrderState.ofInt_toInt, unmarshalByValue]
    rfl
  · rw [hs2, ← hid]; exact filter_insertOrReplace _ row

/-- Witness for the amended C1 on the one-row sample table. -/
theorem funding_preserved_witness :
    (∃ records, GetByPaymentAddress Sample.ext
        (Put Sample.ext (UpdateFunding Sample.ext Sample.store1 "order1" true [Sample.tx1]).2
          "order1" (Sample.directContract "addr1") Sample.pending false).2 Sample.addr1 =
      (.ok (Sample.directContract "addr1", Sample.pending, true, records),
        (Put Sample.ext (UpdateFunding Sample.ext Sample.store1 "order1" true [Sample.tx1]).2
          "order1" (Sample.directContract "addr1") Sample.pending false).2)) ∧
    ∃ row, (Put Sample.ext (UpdateFunding Sample.ext Sample.store1 "order1" true [Sample.tx1]).2
          "order1" (Sample.directContract "addr1") Sample.pending false).2.filter
        (fun r => r.orderID == "order1") = [row] ∧ row.funded = 1 ∧
      row.transactions = Sample.ext.Marshal [Sample.tx1] :=
  funding_preserved Sample.ext Sample.store1 _ "order1" [Sample.tx1]
    (Sample.directContract "addr1") (Sample.directContract "addr1") Sample.pending false
    Sample.addr1 (by decide) (by decide) (by decide) (by decide) (by decide)

/-- C8, as stated, fails on the two-row sample table: order2's row pays to `addr1`,
and after `Delete("order2")` the lookup by `addr1` still succeeds, from order1's
row, instead of reporting not-found. -/
theorem Delete_counterexample :
    (∃ r ∈ Sample.store2, r.orderID = "order2" ∧
      r.paymentAddr = Sample.addr1.EncodeAddress) ∧
    (GetByPaymentAddress Sample.ext (Delete Sample.store2 "order2").2 Sample.addr1).1 =
      .ok (Sample.directContract "addr1", Sample.pending, false, []) ∧
    (GetByPaymentAddress Sample.ext (Delete Sample.store2 "order2").2 Sample.addr1).1 ≠
      .error .ErrNoRows := by
  decide

/-- C8, amended. When every row paying to `a` has orderID `id` (the row for `id` is
the only one with that payment address), `Delete(id)` succeeds, `GetAll` then
does not list `id` and still lists every other orderID, the lookup by `a`
reports not-found, and every row with another orderID is still present. -/
theorem Delete_then_lookup (x : Ext) (s : Store) (id : String) (a : Address)
    (huniq : ∀ r ∈ s, r.paymentAddr = a.EncodeAddress → r.orderID = id) :
    (Delete s id).1 = .ok () ∧
    (∃ ids, (GetAll (Delete s id).2).1 = .ok ids ∧ id ∉ ids ∧
      ∀ r ∈ s, r.orderID ≠ id → r.orderID ∈ ids) ∧
    (GetByPaymentAddress x (Delete s id).2 a).1 = .error .ErrNoRows ∧
    (∀ r ∈ s, r.orderID ≠ id → r ∈ (Delete s id).2) := by
  have hkeep : ∀ r ∈ s, r.orderID ≠ id → r ∈ (Delete s id).2 := by
    intro r hr hne
    exact List.mem_filter.mpr ⟨hr, by simpa using hne⟩
  refine ⟨rfl, ⟨_, rfl, ?_, ?_⟩, ?_, hkeep⟩
  · intro hmem
    obtain ⟨r, hr, hrid⟩ :=
      List.mem_map.mp ((List.perm_insertionSort keyLE _).mem_iff.mp hmem)
    have := (List.mem_filter.mp hr).2
    simp [hrid] at this
  · intro r hr hne
    exact (List.perm_insertionSort keyLE _).mem_iff.mpr
      (List.mem_map.mpr ⟨r, hkeep r hr hne, rfl⟩)
  · unfold GetByPaymentAddress selectByPaymentAddr
    have hnone : (Delete s id).2.find? (fun r => r.paymentAddr == a.EncodeAddress) = none := by
      refine find?_none_of_forall_ne (g := fun r => r.paymentAddr) ?_
      intro r hr hra
      obtain ⟨hrs, hne⟩ := List.mem_filter.mp hr
      have hid := huniq r hrs hra
      simp [hid] at hne
    rw [hnone]

/-- Witness for the amended C8 on the one-row sample table. -/
theorem Delete_then_lookup_witness :
    (∀ r ∈ Sample.store1, r.paymentAddr = Sample.addr1.EncodeAddress → r.orderID = "order1") ∧
    (GetByPaymentAddress Sample.ext (Delete Sample.store1 "order1").2 Sample.addr1).1 =
      .error .ErrNoRows :=
  ⟨by decide, (Delete_then_lookup Sample.ext Sample.store1 "order1" Sample.addr1
    (by decide)).2.2.1⟩

end SalesDB
